import Mathlib

/-!
Verification development for the dual-agent relay/orchestration engine of this
repository.  The authoritative implementation is grapp_v3.py (namespace V3
below); grapp_v6.py contributes a second per-hop stream consumer, stream_once,
and its session loop relay_by_default (namespace V6).

Modelling conventions.
Raw protocol frames are JSON-like values (type J).  Python dict/str/int/bool
semantics that the source relies on (truthiness, str(), dict.get, the in
operator) are modelled by the py-prefixed helpers.  Wall-clock timestamps
(time.time()) are not modelled; transcript order is list order.  The source
wraps each per-hop frame loop in try/except: a transport failure after some
frames is modelled by the err field of Stream.  Operations that would raise
inside Python on ill-typed payloads (for example calling .get on a non-dict,
or joining non-string parts) are totalized here by treating the ill-typed
field as missing; every concrete run used below only contains frames on which
the source and the model agree step by step.
-/

/-- A JSON-like value, the shape of one raw protocol frame. -/
inductive J where
  | null
  | b (v : Bool)
  | i (v : Int)
  | s (v : String)
  | arr (vs : List J)
  | obj (kvs : List (String × J))

/-- First binding of a key in an association list (Python dict lookup). -/
def jlookup (k : String) : List (String × J) → Option J
  | [] => none
  | (k2, v) :: rest => if k2 = k then some v else jlookup k rest

/-- Python d.get(k) for an object; none for every non-object. -/
def J.find : J → String → Option J
  | J.obj kvs, k => jlookup k kvs
  | _, _ => none

/-- Python truthiness of a JSON value. -/
def pyTruthy : J → Bool
  | J.null => false
  | J.b v => v
  | J.i v => v != 0
  | J.s v => v != ""
  | J.arr vs => !vs.isEmpty
  | J.obj kvs => !kvs.isEmpty

/-- Truthiness of an optional value (Python bool(d.get(k)), absent key gives None). -/
def pyTruthyOpt : Option J → Bool
  | some v => pyTruthy v
  | none => false

/-- Python str() of a value.  Objects and arrays render their contents in
Python; the fixed placeholders used here never meet the string sets the
source compares against, which contain no brace or bracket. -/
def pyStrJ : J → String
  | J.null => "None"
  | J.b true => "True"
  | J.b false => "False"
  | J.i v => toString v
  | J.s v => v
  | J.arr _ => "[...]"
  | J.obj _ => "\x7b...\x7d"

/-- Python str() applied to d.get(k) (missing key gives None). -/
def pyStrOpt (o : Option J) : String := pyStrJ (o.getD J.null)

/-- ASCII lowercase of one character (the case fold Python applies to the
pure-ASCII flag words compared below). -/
def lowerChar (c : Char) : Char :=
  if c ≥ 'A' && c ≤ 'Z' then Char.ofNat (c.toNat + 32) else c

/-- Python str.lower() restricted to ASCII, implemented structurally so that
concrete runs evaluate inside the kernel. -/
def pyLower (s : String) : String := ⟨s.data.map lowerChar⟩

/-- ASCII whitespace (the characters Python str.strip() removes in every
string appearing in this development). -/
def pyWS (c : Char) : Bool := c == ' ' || c == '\t' || c == '\n' || c == '\r'

/-- Python str.strip(), implemented structurally. -/
def pyStrip (s : String) : String :=
  ⟨((s.data.dropWhile pyWS).reverse.dropWhile pyWS).reverse⟩

/-- Does the character list start with the given pattern? -/
def hasPrefixL : List Char → List Char → Bool
  | _, [] => true
  | [], _ :: _ => false
  | a :: as, b :: bs => (a == b) && hasPrefixL as bs

/-- Substring occurrence test on character lists (Python "needle in hay"
for strings). -/
def hasSubstr : List Char → List Char → Bool
  | [], needle => hasPrefixL [] needle
  | a :: t, needle => hasPrefixL (a :: t) needle || hasSubstr t needle

/-- Python "k in result".  Key membership for dicts, substring test for
strings, element membership for lists.  For numbers and booleans Python
raises TypeError (caught by the drivers outer try/except); the model returns
false there, and no run below exercises that corner. -/
def pyIn (k : String) : J → Bool
  | J.obj kvs => (jlookup k kvs).isSome
  | J.s str => hasSubstr str.data k.data
  | J.arr vs => vs.any (fun v => match v with | J.s s2 => s2 = k | _ => false)
  | _ => false

/-- Python result.get(kind) == k for a string k. -/
def kindIs (result : J) (k : String) : Bool :=
  match result.find "kind" with
  | some (J.s s2) => s2 = k
  | _ => false

/-- Python (payload.get(key) or dict()) as used for status objects. -/
def objOrEmpty (o : Option J) : J :=
  match o with
  | some (J.obj kvs) => J.obj kvs
  | _ => J.obj []

namespace V3

/-- grapp_v3.TERMINAL_STATES. -/
def TERMINAL_STATES : List String := ["completed", "canceled", "rejected", "failed"]

/-- grapp_v3.RELAY_BY_DEFAULT. -/
def RELAY_BY_DEFAULT : Bool := true

/-- grapp_v3.parse_stream_result: classify one raw frame.  Direct shapes are
probed first, then the one-level wrapped variants, in source order. -/
def parse_stream_result (result_obj : J) : String × J :=
  let result :=
    match result_obj.find "result" with
    | some v => if pyTruthy v then v else J.obj []
    | none => J.obj []
  if !pyTruthy result then ("unknown", result_obj)
  else if pyIn "role" result && pyIn "parts" result then ("message", result)
  else if kindIs result "task" && pyIn "status" result && pyIn "id" result then
    ("task", result)
  else if kindIs result "task-status-update" && pyIn "status" result && pyIn "taskId" result then
    ("statusUpdate", result)
  else if kindIs result "task-artifact-update" && pyIn "taskId" result then
    ("artifactUpdate", result)
  else
    match result.find "message" with
    | some v => ("message", v)
    | none =>
      match result.find "task" with
      | some v => ("task", v)
      | none =>
        match result.find "statusUpdate" with
        | some v => ("statusUpdate", v)
        | none =>
          match result.find "artifactUpdate" with
          | some v => ("artifactUpdate", v)
          | none => ("unknown", result)

/-- One parts entry in grapp_v3.extract_text_parts: a text part contributes
its text (default empty), file and data parts contribute a placeholder
token, any other kind is skipped. -/
def part_piece (p : J) : Option String :=
  match p.find "kind" with
  | some (J.s "text") =>
    some (match p.find "text" with | some (J.s t) => t | _ => "")
  | some (J.s "file") => some "[file]"
  | some (J.s "data") => some "[data]"
  | _ => none

/-- grapp_v3.extract_text_parts: newline-join of the non-empty collected
pieces, in array order. -/
def extract_text_parts (message : J) : String :=
  let parts :=
    match message.find "parts" with
    | some (J.arr vs) => vs
    | _ => []
  String.intercalate "\n" ((parts.filterMap part_piece).filter (fun s2 => s2 != ""))

/-- One transcript entry as appended by the record closure of
grapp_v3.auto_relay_conversation.  The wall-clock field t is not modelled;
entries are ordered by their position in the list. -/
structure Event where
  origin : String
  kind : String
  role : Option J
  text : String
  raw : J
  relayed : Bool

/-- The per-hop mutable locals of grapp_v3.auto_relay_conversation, reset at
the start of every hop, plus the running transcript and the captured first
initiator reply (which persist across hops). -/
structure HopState where
  events : List Event
  relay_text : Option String
  relay_allowed : Bool
  explicit_target : Option String
  stream_reached_terminal : Bool
  last_msg_event_idx : Option Nat
  first_reply : Option String

/-- The disable-relay test of the source:
str(meta.get("relay")).lower() in a set of off strings, or
bool(meta.get("doNotRelay")). -/
def metaDisables (meta : J) : Bool :=
  ["never", "no", "false"].contains (pyLower (pyStrOpt (meta.find "relay")))
    || pyTruthyOpt (meta.find "doNotRelay")

/-- The metadata dict of a message payload:
(payload.get("metadata") or dict()) if it is a dict else dict(). -/
def metaOf (payload : J) : J :=
  match payload.find "metadata" with
  | some (J.obj kvs) => J.obj kvs
  | _ => J.obj []

/-- Terminal-state membership test of the statusUpdate branch:
status in TERMINAL_STATES, where status is the raw state value. -/
def isTerminalState (v : J) : Bool :=
  match v with
  | J.s s2 => TERMINAL_STATES.contains s2
  | _ => false

/-- One iteration of the frame loop in grapp_v3.auto_relay_conversation
(lines 178-213): classify the frame, record a transcript entry for the
recognized kinds, and update the per-hop relay bookkeeping.  Unrecognized
frames are silently skipped by the source (the if/elif chain has no else). -/
def process_frame (sender initiator : String) (h : HopState) (frame : J) : HopState :=
  let typ := (parse_stream_result frame).1
  let payload := (parse_stream_result frame).2
  if typ == "message" then
    let role := payload.find "role"
    let text := pyStrip (extract_text_parts payload)
    let ev : Event :=
      { origin := sender,
        kind := "message",
        role := role,
        text := if text != "" then text else "[non-text parts]",
        raw := frame,
        relayed := false }
    let events := h.events ++ [ev]
    let first :=
      if h.first_reply.isNone && (sender == initiator) && (text != "") then some text
      else h.first_reply
    let meta := metaOf payload
    let allowed := if metaDisables meta then false else h.relay_allowed
    let target :=
      match meta.find "delegateTo" with
      | some (J.s t) => if t == "A" || t == "B" then some t else h.explicit_target
      | _ => h.explicit_target
    let rtext := if text != "" then some text else h.relay_text
    { h with
      events := events,
      last_msg_event_idx := some (events.length - 1),
      first_reply := first,
      relay_allowed := allowed,
      explicit_target := target,
      relay_text := rtext }
  else if typ == "task" then
    let stv := (objOrEmpty (payload.find "status")).find "state" |>.getD (J.s "")
    let ev : Event :=
      { origin := sender,
        kind := "status",
        role := none,
        text := "task " ++ pyStrOpt (payload.find "id") ++ " -> " ++ pyStrJ stv,
        raw := frame,
        relayed := false }
    { h with events := h.events ++ [ev] }
  else if typ == "statusUpdate" then
    let stv := (objOrEmpty (payload.find "status")).find "state" |>.getD (J.s "")
    let is_final := pyTruthyOpt (payload.find "final")
    let msgv := (objOrEmpty (payload.find "status")).find "message" |>.getD (J.s "")
    let ev : Event :=
      { origin := sender,
        kind := "status",
        role := none,
        text := pyStrJ stv ++ (if pyTruthy msgv then " - " ++ pyStrJ msgv else ""),
        raw := frame,
        relayed := false }
    { h with
      events := h.events ++ [ev],
      stream_reached_terminal :=
        if is_final || isTerminalState stv then true else h.stream_reached_terminal }
  else if typ == "artifactUpdate" then
    let ev : Event :=
      { origin := sender,
        kind := "artifact",
        role := none,
        text := "artifact update for task " ++ pyStrOpt (payload.find "taskId"),
        raw := frame,
        relayed := false }
    { h with events := h.events ++ [ev] }
  else h

/-- The full frame loop of one hop, in arrival order. -/
def process_frames (sender initiator : String) (h : HopState) : List J → HopState
  | [] => h
  | f :: fs => process_frames sender initiator (process_frame sender initiator h f) fs

/-- One streamed response: the frames yielded before the stream ended, and,
when the call failed mid-iteration, the exception message raised after them. -/
structure Stream where
  frames : List J
  err : Option String

/-- The cross-hop state of grapp_v3.auto_relay_conversation: current and other
speaker labels, the pending outbound message, transcript, hop counter, first
initiator reply, and whether the most recent hop ended in the except branch
(used only to name the exit in the vocabulary of the spec). -/
structure SessState where
  current : String
  other : String
  next_message : Option J
  events : List Event
  hops : Nat
  first_reply : Option String
  last_errored : Bool

/-- Python: "B" if label == "A" else "A". -/
def flipOf (label : String) : String := if label = "A" then "B" else "A"

/-- The outbound user message built for the next hop. -/
def mkUserMsg (t : String) : J :=
  J.obj [("role", J.s "user"),
    ("parts", J.arr [J.obj [("kind", J.s "text"), ("text", J.s t)]])]

/-- The per-hop locals as initialized at the top of the while body. -/
def hop_init (st : SessState) : HopState :=
  { events := st.events,
    relay_text := none,
    relay_allowed := RELAY_BY_DEFAULT,
    explicit_target := none,
    stream_reached_terminal := false,
    last_msg_event_idx := none,
    first_reply := st.first_reply }

/-- The transcript entry recorded by the except branch. -/
def errorEvent (sender e : String) : Event :=
  { origin := "system",
    kind := "error",
    role := none,
    text := sender ++ " stream error: " ++ e,
    raw := J.obj [("exception", J.s e)],
    relayed := false }

/-- The try block of one hop: process every yielded frame; if the stream then
fails, record the error entry and clear the relay decision exactly as the
except branch does. -/
def hop_process (env : String → J → Stream) (initiator : String)
    (st : SessState) (msg : J) : HopState :=
  let stream := env st.current msg
  let h0 := process_frames st.current initiator (hop_init st) stream.frames
  match stream.err with
  | none => h0
  | some e =>
    { h0 with
      events := h0.events ++ [errorEvent st.current e],
      relay_text := none,
      relay_allowed := false,
      stream_reached_terminal := true }

/-- The relay condition at the end of a hop:
relay_allowed and relay_text and last_msg_event_idx is not None. -/
def hop_relays (h : HopState) : Bool :=
  h.relay_allowed
    && (match h.relay_text with | some s2 => s2 != "" | none => false)
    && h.last_msg_event_idx.isSome

/-- events[idx].relayed = True: flip the relayed flag of the entry at idx. -/
def markRelayed (evs : List Event) (i : Nat) : List Event :=
  match evs[i]? with
  | some e => evs.set i { e with relayed := true }
  | none => evs

/-- One full hop: stream, record, increment the hop counter, then either mark
the last message entry as relayed and schedule the next hop (honoring an
explicit delegateTo target, else ping-pong), or clear the pending message. -/
def do_hop (env : String → J → Stream) (initiator : String)
    (st : SessState) (msg : J) : SessState :=
  let h := hop_process env initiator st msg
  let errored := (env st.current msg).err.isSome
  if hop_relays h then
    let idx := h.last_msg_event_idx.getD 0
    let next_target :=
      match h.explicit_target with
      | some t => if t == "A" || t == "B" then t else st.other
      | none => st.other
    { current := next_target,
      other := flipOf next_target,
      next_message := some (mkUserMsg (h.relay_text.getD "")),
      events := markRelayed h.events idx,
      hops := st.hops + 1,
      first_reply := h.first_reply,
      last_errored := errored }
  else
    { current := st.current,
      other := st.other,
      next_message := none,
      events := h.events,
      hops := st.hops + 1,
      first_reply := h.first_reply,
      last_errored := errored }

/-- The while loop: fuel counts the remaining allowed hops
(hop_limit - hops), and the loop also stops once next_message is None. -/
def auto_relay_loop (env : String → J → Stream) (initiator : String) :
    Nat → SessState → SessState
  | 0, st => st
  | fuel + 1, st =>
    match st.next_message with
    | none => st
    | some msg => auto_relay_loop env initiator fuel (do_hop env initiator st msg)

/-- The session state before the first hop. -/
def init_sess (initiator prompt : String) : SessState :=
  { current := initiator,
    other := flipOf initiator,
    next_message := some (mkUserMsg prompt),
    events := [],
    hops := 0,
    first_reply := none,
    last_errored := false }

/-- grapp_v3.auto_relay_conversation as a function of the transport
environment: the final driver state. -/
def auto_relay_final (env : String → J → Stream) (initiator prompt : String)
    (hop_limit : Nat) : SessState :=
  auto_relay_loop env initiator hop_limit (init_sess initiator prompt)

/-- The pair grapp_v3.auto_relay_conversation returns. -/
def auto_relay_conversation (env : String → J → Stream) (initiator prompt : String)
    (hop_limit : Nat) : List Event × String :=
  let fin := auto_relay_final env initiator prompt hop_limit
  (fin.events,
    match fin.first_reply with
    | some s2 => if s2 != "" then s2 else "(no immediate reply)"
    | none => "(no immediate reply)")

/-- Terminal reason in the vocabulary of the spec (section 4.4), derived from
the exit condition of the source loop: the loop stops with a pending message
only at the hop bound; it stops with no pending message after an errored hop
(transport_error) or after a failed relay decision (no_relay).  grapp_v3
computes stream_reached_terminal but never reads it, so no run of this driver
exits with the peer_terminal_state reason. -/
def session_reason (fin : SessState) : String :=
  match fin.next_message with
  | some _ => "hop_limit"
  | none => if fin.last_errored then "transport_error" else "no_relay"

/-- The disable test lifted to a raw frame: a frame that classifies as a
message whose metadata disables relaying. -/
def frameDisables (f : J) : Bool :=
  (parse_stream_result f).1 == "message"
    && metaDisables (metaOf (parse_stream_result f).2)

/-- The relay text contributed by one raw frame: the trimmed extracted text
of a message frame when non-empty. -/
def frameText (f : J) : Option String :=
  if (parse_stream_result f).1 == "message" then
    let t := pyStrip (extract_text_parts (parse_stream_result f).2)
    if t != "" then some t else none
  else none

end V3

namespace V6

/-- grapp_v6.MAX_HOPS. -/
def MAX_HOPS : Nat := 12

/-- One item yielded by the SDK streaming client in grapp_v6.stream_once:
either a Message (its extracted text and metadata dict), a bare Task tuple,
a TaskStatusUpdateEvent (the str() of its state, its message text, its final
flag), a TaskArtifactUpdateEvent (its text preview), or anything else, which
the source neither records nor reacts to. -/
inductive A2AItem where
  | msg (text : String) (meta : J)
  | taskOnly (id : String)
  | statusEv (state : String) (message : String) (final : Bool)
  | artifactEv (preview : String)
  | other

/-- One relay-trace entry of grapp_v6 (dataclass RelayEvent); the raw and
meta payload fields are omitted, they are never read by the relay logic. -/
structure Ev6 where
  idx : Nat
  from_agent : String
  to_agent : String
  kind : String
  text : String

/-- The route_hint dict built from message metadata in grapp_v6.stream_once.
Its relay entry is already a Python bool (the result of the truthiness
helper), audience and target_agent carry the raw metadata values. -/
structure RouteHint where
  relay : Bool
  audience : Option J
  target_agent : J

/-- grapp_v6 helper named with a leading underscore in the source: a bool is
itself, a string is truthy unless its trimmed lowercase form is one of the
off words, anything else gives the default. -/
def truthyDefault (v : Option J) (default : Bool) : Bool :=
  match v with
  | some (J.b b2) => b2
  | some (J.s s2) => !(["", "0", "false", "no", "off", "never"].contains (pyLower (pyStrip s2)))
  | _ => default

/-- The terminal test of grapp_v6.stream_once:
str(state).lower() in a set containing only completed and failed forms. -/
def terminal6 (state : String) : Bool :=
  ["completed", "taskstate.completed", "failed", "taskstate.failed"].contains (pyLower state)

/-- The result tuple of grapp_v6.stream_once: (reply, events, terminal,
route_hint); hint is none exactly when the route_hint dict stayed empty. -/
structure StreamOnceRes where
  reply : String
  events : List Ev6
  terminal : Bool
  hint : Option RouteHint

/-- Python: meta.get("target_agent") or meta.get("delegateTo"). -/
def targetOf (meta : J) : J :=
  match meta.find "target_agent" with
  | some v => if pyTruthy v then v else (meta.find "delegateTo").getD J.null
  | none => (meta.find "delegateTo").getD J.null

/-- Build one RelayEvent entry (kept as a helper so trace entries fit on
one line). -/
def mkEv6 (idx : Nat) (from_agent to_agent kind text : String) : Ev6 :=
  { idx := idx,
    from_agent := from_agent,
    to_agent := to_agent,
    kind := kind,
    text := text }

/-- grapp_v6.stream_once: consume streamed items in order, collecting one
trace entry per recognized item; stop at the first Message (the baton), or
at a TaskStatusUpdateEvent whose final flag is set and whose state is a
completed/failed form (terminal), or when the stream ends. -/
def stream_once (speaker peer : String) : List A2AItem → List Ev6 → StreamOnceRes
  | [], acc => { reply := "", events := acc, terminal := false, hint := none }
  | A2AItem.msg text meta :: _, acc =>
    let hint : RouteHint :=
      { relay := truthyDefault (meta.find "relay") true,
        audience := meta.find "audience",
        target_agent := targetOf meta }
    { reply := text,
      events := acc ++ [mkEv6 acc.length speaker peer "message" text],
      terminal := false,
      hint := some hint }
  | A2AItem.taskOnly id :: rest, acc =>
    stream_once speaker peer rest
      (acc ++ [mkEv6 acc.length speaker peer "task" ("task " ++ id ++ " updated")])
  | A2AItem.statusEv state m final :: rest, acc =>
    let acc2 := acc ++ [mkEv6 acc.length speaker peer "status" (state ++ ": " ++ m)]
    if final && terminal6 state then
      { reply := "", events := acc2, terminal := true, hint := none }
    else stream_once speaker peer rest acc2
  | A2AItem.artifactEv p :: rest, acc =>
    stream_once speaker peer rest
      (acc ++ [mkEv6 acc.length speaker peer "artifact" p])
  | A2AItem.other :: rest, acc => stream_once speaker peer rest acc

/-- Does this item make stream_once stop consuming the stream? -/
def stopsAt : A2AItem → Bool
  | A2AItem.msg _ _ => true
  | A2AItem.statusEv state _ final => final && terminal6 state
  | _ => false

/-- grapp_v6.NAME_MAP as a lookup from the normalized target string. -/
def NAME_MAP (t : String) : Option String :=
  if t = "claims_agent" then some "claims"
  else if t = "mr_agent" then some "mr"
  else if t = "claims" then some "claims"
  else if t = "mr" then some "mr"
  else none

/-- The first key of the two-agent dict that differs from k (dict order is
claims then mr, as built by on_connect). -/
def other6 (k : String) : String := if k = "claims" then "mr" else "claims"

/-- The relay decision of grapp_v6.relay_by_default.  The source applies its
truthiness helper to hint.get("relay"), but stream_once already stored a
Python bool there, so the helper returns that bool on both audience
branches. -/
def relayOk (hint : Option RouteHint) : Bool :=
  match hint with
  | none => true
  | some h =>
    let isUser := match h.audience with | some (J.s a) => a == "user" | _ => false
    if isUser then h.relay else h.relay

/-- Python: (hint.get("target_agent") or "").strip().lower().  A truthy
non-string value would raise in the source; no run below contains one. -/
def tgtString (hint : Option RouteHint) : String :=
  match hint with
  | none => ""
  | some h =>
    match h.target_agent with
    | J.s s2 => pyLower (pyStrip s2)
    | _ => ""

/-- The for-loop body of grapp_v6.relay_by_default, with fuel counting the
remaining iterations of range(MAX_HOPS).  The environment maps (agent key,
baton text) to the items its stream yields. -/
def relay_loop (env : String → String → List A2AItem) (initiator : String) :
    Nat → String → String → String → Option String → List Ev6 → List Ev6 × Option String
  | 0, _, _, _, final_reply, acc => (acc, final_reply)
  | fuel + 1, current, next_peer, baton, final_reply, acc =>
    let r := stream_once current next_peer (env current baton) []
    let evs := r.events.map (fun e => { e with to_agent := next_peer })
    let acc2 := acc ++ evs
    let final_reply2 :=
      if r.reply != "" && current == initiator && final_reply.isNone then some r.reply
      else final_reply
    if r.terminal then (acc2, final_reply2)
    else if !relayOk r.hint || r.reply == "" then (acc2, final_reply2)
    else
      match NAME_MAP (tgtString r.hint) with
      | some nk =>
        relay_loop env initiator fuel nk (other6 nk) r.reply final_reply2 acc2
      | none =>
        relay_loop env initiator fuel next_peer current r.reply final_reply2 acc2

/-- grapp_v6.relay_by_default: the accumulated relay trace of one request
thread and the captured first initiator reply. -/
def relay_by_default (env : String → String → List A2AItem) (initiator prompt : String) :
    List Ev6 × Option String :=
  relay_loop env initiator MAX_HOPS initiator (other6 initiator) prompt none []

end V6

namespace V3

/-- A message frame from the sender with the given text and no metadata. -/
def msgFrame (t : String) : J :=
  J.obj [("result", J.obj [("role", J.s "agent"),
    ("parts", J.arr [J.obj [("kind", J.s "text"), ("text", J.s t)]])])]

/-- A message frame with the given text and metadata dict. -/
def msgFrameMeta (t : String) (meta : List (String × J)) : J :=
  J.obj [("result", J.obj [("role", J.s "agent"),
    ("parts", J.arr [J.obj [("kind", J.s "text"), ("text", J.s t)]]),
    ("metadata", J.obj meta)])]

/-- A message frame whose parts array is empty (no extractable text). -/
def msgFrameEmpty : J :=
  J.obj [("result", J.obj [("role", J.s "agent"), ("parts", J.arr [])])]

/-- A message frame whose single part is a file part. -/
def msgFrameFile : J :=
  J.obj [("result", J.obj [("role", J.s "agent"),
    ("parts", J.arr [J.obj [("kind", J.s "file")]])])]

/-- A task-status-update frame with final set and a completed state. -/
def statusFinalFrame : J :=
  J.obj [("result", J.obj [("kind", J.s "task-status-update"),
    ("taskId", J.s "t1"),
    ("status", J.obj [("state", J.s "completed")]),
    ("final", J.b true)])]

/-- A non-final task-status-update frame with a working (non-terminal)
state: the stream signal of a peer that never finishes. -/
def statusWorkingFrame : J :=
  J.obj [("result", J.obj [("kind", J.s "task-status-update"),
    ("taskId", J.s "t1"),
    ("status", J.obj [("state", J.s "working")])])]

/-- Environment for claim C1: every stream yields one message with text hi
followed by one message with no extractable text. -/
def envC1 : String → J → Stream :=
  fun _ _ => { frames := [msgFrame "hi", msgFrameEmpty], err := none }

/-- Environment for claim C2: agent A answers with a final completed status
update and then a further message; agent B answers with an empty stream. -/
def envC2 : String → J → Stream :=
  fun l _ =>
    if l == "A" then { frames := [statusFinalFrame, msgFrame "hello"], err := none }
    else { frames := [], err := none }

/-- Environment for claim C3: one hop yields a first message that disables
relaying and a second benign message. -/
def envC3 : String → J → Stream :=
  fun _ _ =>
    { frames := [msgFrameMeta "x" [("relay", J.s "never")], msgFrame "y"],
      err := none }

/-- Environment for the C4 witness: one message with non-empty text whose
metadata both disables relaying and names an explicit target. -/
def envC4 : String → J → Stream :=
  fun _ _ =>
    { frames := [msgFrameMeta "hi" [("relay", J.s "never"), ("delegateTo", J.s "B")]],
      err := none }

/-- Environment for claim C5: agent A emits a message whose only part is a
file part; agent B answers with an empty stream. -/
def envC5 : String → J → Stream :=
  fun l _ =>
    if l == "A" then { frames := [msgFrameFile], err := none }
    else { frames := [], err := none }

/-- Environment for the C6 witness: the speaker delegates the next hop to
agent A explicitly (the same endpoint that just spoke). -/
def envC6 : String → J → Stream :=
  fun _ _ => { frames := [msgFrameMeta "loop" [("delegateTo", J.s "A")]], err := none }

/-- Environment for the C7 witness: every stream is empty. -/
def envC7 : String → J → Stream :=
  fun _ _ => { frames := [], err := none }

/-- Environment for claim C8: every stream yields one relayable message. -/
def envC8 : String → J → Stream :=
  fun _ _ => { frames := [msgFrame "hello"], err := none }

/-- Environment family for claim C9: a peer that sends n non-final working
status updates and never a message, a final flag or a terminal state. -/
def envC9 (n : Nat) : String → J → Stream :=
  fun _ _ => { frames := List.replicate n statusWorkingFrame, err := none }

end V3

namespace V6

/-- Item stream for claim C2: a task update, then a final completed status
update, then a message the peer sends after its terminal signal. -/
def itemsC2 : List A2AItem :=
  [A2AItem.taskOnly "t1"] ++
    A2AItem.statusEv "completed" "done" true :: [A2AItem.msg "late" (J.obj [])]

end V6

section ListHelpers

variable {α : Type}

lemma getq_append_right (l1 l2 : List α) :
    ∀ i, l1.length ≤ i → (l1 ++ l2)[i]? = l2[i - l1.length]? := by
  induction l1 with
  | nil => intro i _; simp
  | cons a as ih =>
    intro i hi
    cases i with
    | zero => simp at hi
    | succ j =>
      simp only [List.cons_append, List.getElem?_cons_succ, List.length_cons]
      have := ih j (by simpa using hi)
      simpa [Nat.succ_sub_succ] using this

lemma getq_set_self (l : List α) :
    ∀ (i : Nat) (a e : α), l[i]? = some e → (l.set i a)[i]? = some a := by
  induction l with
  | nil => intro i a e he; simp at he
  | cons b bs ih =>
    intro i a e he
    cases i with
    | zero => simp [List.set]
    | succ j =>
      simp only [List.getElem?_cons_succ] at he
      simpa [List.set] using ih j a e he

lemma mem_of_getq (l : List α) :
    ∀ (i : Nat) (e : α), l[i]? = some e → e ∈ l := by
  induction l with
  | nil => intro i e he; simp at he
  | cons b bs ih =>
    intro i e he
    cases i with
    | zero => simp at he; simp [he]
    | succ j =>
      simp only [List.getElem?_cons_succ] at he
      exact List.mem_cons_of_mem b (ih j e he)

lemma set_append_right (l1 l2 : List α) :
    ∀ (i : Nat) (a : α), l1.length ≤ i →
      (l1 ++ l2).set i a = l1 ++ l2.set (i - l1.length) a := by
  induction l1 with
  | nil => intro i a _; simp
  | cons b bs ih =>
    intro i a hi
    cases i with
    | zero => simp at hi
    | succ j =>
      simp only [List.cons_append, List.set, List.length_cons, Nat.succ_sub_succ,
        List.append_eq]
      rw [ih j a (by simpa using hi)]

end ListHelpers

namespace V3

lemma process_frame_relay_fields (s2 i2 : String) (h : HopState) (f : J) :
    (process_frame s2 i2 h f).relay_allowed = (h.relay_allowed && !frameDisables f)
    ∧ (process_frame s2 i2 h f).relay_text =
        (match frameText f with | some t => some t | none => h.relay_text) := by
  unfold process_frame frameDisables frameText
  cases hm : ((parse_stream_result f).1 == "message") with
  | true =>
    simp only [hm, if_true]
    constructor
    · cases hd : metaDisables (metaOf (parse_stream_result f).2) <;> simp [hd]
    · cases ht : (pyStrip (extract_text_parts (parse_stream_result f).2) != "") <;> simp [ht]
  | false =>
    simp only [hm, Bool.false_eq_true, if_false, Bool.false_and, Bool.not_false,
      Bool.and_true]
    split
    · simp
    · split
      · simp
      · split <;> simp

lemma process_frames_relay_allowed (s2 i2 : String) :
    ∀ (fs : List J) (h : HopState),
      (process_frames s2 i2 h fs).relay_allowed
        = (h.relay_allowed && fs.all (fun f => !frameDisables f)) := by
  intro fs
  induction fs with
  | nil => intro h; simp [process_frames]
  | cons f fs ih =>
    intro h
    have hf := (process_frame_relay_fields s2 i2 h f).1
    simp only [process_frames, ih, hf, List.all_cons, Bool.and_assoc]

lemma process_frames_relay_text (s2 i2 : String) :
    ∀ (fs : List J) (h : HopState),
      (process_frames s2 i2 h fs).relay_text
        = (match (fs.filterMap frameText).getLast? with
           | some t => some t
           | none => h.relay_text) := by
  intro fs
  induction fs with
  | nil => intro h; simp [process_frames]
  | cons f fs ih =>
    intro h
    have hf := (process_frame_relay_fields s2 i2 h f).2
    simp only [process_frames, ih, hf, List.filterMap_cons]
    cases hft : frameText f with
    | none => rfl
    | some t =>
      cases hfm : fs.filterMap frameText with
      | nil => simp
      | cons b bs =>
        cases hgl : (b :: bs).getLast? with
        | some u => simp [hgl]
        | none => simp at hgl

end V3

namespace V3

lemma process_frame_shape (s2 i2 : String) (h : HopState) (f : J) :
    ∃ tail, (process_frame s2 i2 h f).events = h.events ++ tail
      ∧ tail.all (fun e => !e.relayed) = true
      ∧ ((process_frame s2 i2 h f).last_msg_event_idx = h.last_msg_event_idx
         ∨ ((process_frame s2 i2 h f).last_msg_event_idx = some h.events.length
            ∧ tail ≠ [])) := by
  unfold process_frame
  cases hm : ((parse_stream_result f).1 == "message") with
  | true =>
    simp only [hm, if_true]
    refine ⟨_, rfl, by simp, Or.inr ⟨?_, by simp⟩⟩
    simp
  | false =>
    simp only [hm, Bool.false_eq_true, if_false]
    split
    · exact ⟨_, rfl, by simp, Or.inl rfl⟩
    · split
      · exact ⟨_, rfl, by simp, Or.inl rfl⟩
      · split
        · exact ⟨_, rfl, by simp, Or.inl rfl⟩
        · exact ⟨[], by simp, by simp, Or.inl rfl⟩

lemma process_frames_shape (s2 i2 : String) :
    ∀ (fs : List J) (h : HopState),
      (∀ j, h.last_msg_event_idx = some j → j < h.events.length) →
      ∃ tail, (process_frames s2 i2 h fs).events = h.events ++ tail
        ∧ tail.all (fun e => !e.relayed) = true
        ∧ ∀ j, (process_frames s2 i2 h fs).last_msg_event_idx = some j →
            j < (process_frames s2 i2 h fs).events.length
            ∧ (h.last_msg_event_idx = some j ∨ h.events.length ≤ j) := by
  intro fs
  induction fs with
  | nil =>
    intro h hidx
    exact ⟨[], by simp [process_frames], by simp, fun j hj =>
      ⟨hidx j (by simpa [process_frames] using hj), Or.inl (by simpa [process_frames] using hj)⟩⟩
  | cons f fs ih =>
    intro h hidx
    obtain ⟨t1, ht1, ht1f, ht1i⟩ := process_frame_shape s2 i2 h f
    have hidx2 : ∀ j, (process_frame s2 i2 h f).last_msg_event_idx = some j →
        j < (process_frame s2 i2 h f).events.length := by
      intro j hj
      rcases ht1i with hsame | ⟨hnew, hne⟩
      · rw [hsame] at hj
        calc j < h.events.length := hidx j hj
          _ ≤ (process_frame s2 i2 h f).events.length := by
            rw [ht1]; simp
      · rw [hnew] at hj
        cases hj
        rw [ht1]
        have : 0 < t1.length := List.length_pos.mpr hne
        simp only [List.length_append]
        omega
    obtain ⟨t2, ht2, ht2f, ht2i⟩ := ih (process_frame s2 i2 h f) hidx2
    refine ⟨t1 ++ t2, ?_, ?_, ?_⟩
    · simp only [process_frames, ht2, ht1, List.append_assoc]
    · simp [List.all_append, ht1f, ht2f]
    · intro j hj
      have hj2 := ht2i j (by simpa [process_frames] using hj)
      refine ⟨by simpa [process_frames] using hj2.1, ?_⟩
      rcases hj2.2 with hmid | hge
      · rcases ht1i with hsame | ⟨hnew, _⟩
        · rw [hsame] at hmid; exact Or.inl hmid
        · rw [hnew] at hmid
          cases hmid
          exact Or.inr (le_refl _)
      · refine Or.inr ?_
        calc h.events.length ≤ (process_frame s2 i2 h f).events.length := by
              rw [ht1]; simp
          _ ≤ j := hge

lemma hop_process_shape (env : String → J → Stream) (i2 : String)
    (st : SessState) (msg : J) :
    ∃ tail, (hop_process env i2 st msg).events = st.events ++ tail
      ∧ tail.all (fun e => !e.relayed) = true
      ∧ ∀ j, (hop_process env i2 st msg).last_msg_event_idx = some j →
          st.events.length ≤ j ∧ j < (hop_process env i2 st msg).events.length := by
  have hinit : ∀ j, (hop_init st).last_msg_event_idx = some j →
      j < (hop_init st).events.length := by
    intro j hj; simp [hop_init] at hj
  obtain ⟨tail, ht, htf, hti⟩ :=
    process_frames_shape st.current i2 (env st.current msg).frames (hop_init st) hinit
  have hbase : (hop_init st).events = st.events := rfl
  cases herr : (env st.current msg).err with
  | none =>
    refine ⟨tail, ?_, htf, ?_⟩
    · simp only [hop_process, herr]
      rw [ht, hbase]
    · intro j hj
      simp only [hop_process, herr] at hj ⊢
      have := hti j hj
      rcases this.2 with hnone | hge
      · simp [hop_init] at hnone
      · exact ⟨by simpa [hop_init] using hge, this.1⟩
  | some e =>
    refine ⟨tail ++ [errorEvent st.current e], ?_, ?_, ?_⟩
    · simp only [hop_process, herr]
      rw [ht, hbase, List.append_assoc]
    · simp [List.all_append, htf, errorEvent]
    · intro j hj
      simp only [hop_process, herr] at hj ⊢
      have := hti j hj
      rcases this.2 with hnone | hge
      · simp [hop_init] at hnone
      · refine ⟨by simpa [hop_init] using hge, ?_⟩
        simp only [List.length_append]
        omega

lemma do_hop_hops (env : String → J → Stream) (i2 : String) (st : SessState) (msg : J) :
    (do_hop env i2 st msg).hops = st.hops + 1 := by
  by_cases hr : hop_relays (hop_process env i2 st msg) = true
  · simp [do_hop, hr]
  · simp [do_hop, hr]

lemma loop_stop (env : String → J → Stream) (i2 : String) :
    ∀ (fuel : Nat) (st : SessState), st.next_message = none →
      auto_relay_loop env i2 fuel st = st := by
  intro fuel st hst
  cases fuel with
  | zero => rfl
  | succ k => simp [auto_relay_loop, hst]

lemma loop_hops_le (env : String → J → Stream) (i2 : String) :
    ∀ (fuel : Nat) (st : SessState),
      (auto_relay_loop env i2 fuel st).hops ≤ st.hops + fuel := by
  intro fuel
  induction fuel with
  | zero => intro st; simp [auto_relay_loop]
  | succ k ih =>
    intro st
    cases hst : st.next_message with
    | none => simp [auto_relay_loop, hst]
    | some msg =>
      simp only [auto_relay_loop, hst]
      calc (auto_relay_loop env i2 k (do_hop env i2 st msg)).hops
          ≤ (do_hop env i2 st msg).hops + k := ih _
        _ = st.hops + 1 + k := by rw [do_hop_hops]
        _ ≤ st.hops + (k + 1) := by omega

end V3

lemma filterMap_none_replicate {α β : Type} (f : α → Option β) (a : α) (hf : f a = none) :
    ∀ n, (List.replicate n a).filterMap f = [] := by
  intro n
  induction n with
  | zero => rfl
  | succ k ih => simp [List.replicate_succ, List.filterMap_cons, hf, ih]

namespace V3

lemma process_frame_status_len (s2 i2 : String) (h : HopState) :
    (process_frame s2 i2 h statusWorkingFrame).events.length = h.events.length + 1 := by
  have h1 : ((parse_stream_result statusWorkingFrame).1 == "message") = false := by decide
  have h2 : ((parse_stream_result statusWorkingFrame).1 == "task") = false := by decide
  have h3 : ((parse_stream_result statusWorkingFrame).1 == "statusUpdate") = true := by decide
  simp [process_frame, h1, h2, h3]

lemma process_frames_replicate_status (s2 i2 : String) :
    ∀ (n : Nat) (h : HopState),
      (process_frames s2 i2 h (List.replicate n statusWorkingFrame)).events.length
        = h.events.length + n := by
  intro n
  induction n with
  | zero => intro h; simp [process_frames]
  | succ k ih =>
    intro h
    rw [List.replicate_succ]
    show (process_frames s2 i2 (process_frame s2 i2 h statusWorkingFrame)
      (List.replicate k statusWorkingFrame)).events.length = h.events.length + (k + 1)
    rw [ih, process_frame_status_len]
    omega

end V3

namespace V6

lemma stream_once_stops (spk peer : String) (stop : A2AItem) (post : List A2AItem)
    (hstop : stopsAt stop = true) :
    ∀ (pre : List A2AItem) (acc : List Ev6),
      pre.all (fun it => !stopsAt it) = true →
      stream_once spk peer (pre ++ stop :: post) acc
        = stream_once spk peer (pre ++ [stop]) acc := by
  intro pre
  induction pre with
  | nil =>
    intro acc _
    cases stop with
    | msg t m => rfl
    | statusEv stt m fin =>
      simp only [stopsAt] at hstop
      simp [stream_once, hstop]
    | taskOnly id => simp [stopsAt] at hstop
    | artifactEv p => simp [stopsAt] at hstop
    | other => simp [stopsAt] at hstop
  | cons it pre ih =>
    intro acc hall
    simp only [List.all_cons, Bool.and_eq_true] at hall
    obtain ⟨hit, hpre⟩ := hall
    cases it with
    | msg t m => simp [stopsAt] at hit
    | taskOnly id =>
      simp only [List.cons_append, stream_once]
      exact ih _ hpre
    | statusEv stt m fin =>
      have hcond : (fin && terminal6 stt) = false := by
        have := hit
        simp only [stopsAt, Bool.not_eq_true'] at this
        exact this
      simp only [List.cons_append, stream_once, hcond]
      exact ih _ hpre
    | artifactEv p =>
      simp only [List.cons_append, stream_once]
      exact ih _ hpre
    | other =>
      simp only [List.cons_append, stream_once]
      exact ih _ hpre

lemma stream_once_terminal (spk peer stt m : String) (hs : terminal6 stt = true) :
    ∀ (pre : List A2AItem) (acc : List Ev6),
      pre.all (fun it => !stopsAt it) = true →
      (stream_once spk peer (pre ++ [A2AItem.statusEv stt m true]) acc).terminal = true := by
  intro pre
  induction pre with
  | nil =>
    intro acc _
    simp [stream_once, hs]
  | cons it pre ih =>
    intro acc hall
    simp only [List.all_cons, Bool.and_eq_true] at hall
    obtain ⟨hit, hpre⟩ := hall
    cases it with
    | msg t m2 => simp [stopsAt] at hit
    | taskOnly id =>
      simp only [List.cons_append, stream_once]
      exact ih _ hpre
    | statusEv stt2 m2 fin =>
      have hcond : (fin && terminal6 stt2) = false := by
        have := hit
        simp only [stopsAt, Bool.not_eq_true'] at this
        exact this
      simp only [List.cons_append, stream_once, hcond]
      exact ih _ hpre
    | artifactEv p =>
      simp only [List.cons_append, stream_once]
      exact ih _ hpre
    | other =>
      simp only [List.cons_append, stream_once]
      exact ih _ hpre

end V6

open V3 V6

/-- Claim C3 counterexample: in grapp_v3, a hop observes two Message events;
the last one (text y, benign metadata) does not determine the relay
decision: the disable flag set by the first message sticks, so the hop does
not relay and the session ends after one hop with nothing marked relayed,
although the claim predicts a relay of y. -/
theorem C3_counterexample :
    (auto_relay_final envC3 "A" "p" 3).hops = 1
    ∧ (auto_relay_final envC3 "A" "p" 3).events.map (fun e => (e.text, e.relayed))
        = [("x", false), ("y", false)] := by
  exact ⟨rfl, rfl⟩

/-- Claim C3 (amended): within one hop, the relay text is the last non-empty
extracted message text (later Message events with non-empty text override
earlier ones, but an empty-text Message does not), while the relay-allowed
decision is not determined by the last Message: it is the conjunction over
all Message events of the hop, so one disabling Message disables the whole
hop regardless of later messages. -/
theorem C3_theorem (sender initiator : String) (h : HopState) (fs : List J) :
    (process_frames sender initiator h fs).relay_allowed
      = (h.relay_allowed && fs.all (fun f => !frameDisables f))
    ∧ (process_frames sender initiator h fs).relay_text
      = (match (fs.filterMap frameText).getLast? with
         | some t => some t
         | none => h.relay_text) :=
  ⟨process_frames_relay_allowed sender initiator fs h,
   process_frames_relay_text sender initiator fs h⟩

/-- Claim C4: a hop whose stream contains a Message with the disable-relay
flag (and no transport error) never schedules a following hop: the pending
message is cleared, the driver loop stops immediately afterwards, and the
exit is the no_relay terminal reason of the spec, even when the message text
is non-empty and an explicit delegateTo target is present. -/
theorem C4_theorem (env : String → J → Stream) (initiator : String)
    (st : SessState) (msg : J)
    (hd : (env st.current msg).frames.any frameDisables = true)
    (he : (env st.current msg).err = none) :
    (do_hop env initiator st msg).next_message = none
    ∧ session_reason (do_hop env initiator st msg) = "no_relay"
    ∧ ∀ fuel, auto_relay_loop env initiator fuel (do_hop env initiator st msg)
        = do_hop env initiator st msg := by
  have hra : (hop_process env initiator st msg).relay_allowed = false := by
    simp only [hop_process, he]
    rw [process_frames_relay_allowed]
    have hall : (env st.current msg).frames.all (fun f => !frameDisables f) = false := by
      rw [Bool.eq_false_iff]
      intro hall
      rw [List.all_eq_true] at hall
      rw [List.any_eq_true] at hd
      obtain ⟨f, hf, hdf⟩ := hd
      have := hall f hf
      rw [hdf] at this
      simp at this
    rw [hall, Bool.and_false]
  have hrel : hop_relays (hop_process env initiator st msg) = false := by
    simp [hop_relays, hra]
  have hnm : (do_hop env initiator st msg).next_message = none := by
    simp [do_hop, hrel]
  have herr2 : (do_hop env initiator st msg).last_errored = false := by
    simp [do_hop, hrel, he]
  refine ⟨hnm, ?_, fun fuel => loop_stop env initiator fuel _ hnm⟩
  simp [session_reason, hnm, herr2]

/-- Claim C4 witness: a concrete hop whose single Message has non-empty text
hi, relay never, and delegateTo B; no next hop is scheduled, the loop stops,
and the exit reason is no_relay. -/
theorem C4_witness :
    (envC4 "A" (mkUserMsg "p")).frames.any frameDisables = true
    ∧ (do_hop envC4 "A" (init_sess "A" "p") (mkUserMsg "p")).next_message = none
    ∧ session_reason (do_hop envC4 "A" (init_sess "A" "p") (mkUserMsg "p")) = "no_relay"
    ∧ auto_relay_loop envC4 "A" 5 (do_hop envC4 "A" (init_sess "A" "p") (mkUserMsg "p"))
        = do_hop envC4 "A" (init_sess "A" "p") (mkUserMsg "p") := by
  have h := C4_theorem envC4 "A" (init_sess "A" "p") (mkUserMsg "p") (by decide) rfl
  exact ⟨by decide, h.1, h.2.1, h.2.2 5⟩

/-- Claim C6: when the relay decision of a hop succeeds and carries an
explicit target label naming a configured endpoint (A or B), the next hop
runs with exactly that label as the active speaker, overriding the default
ping-pong alternation; the label may equal the endpoint that just spoke. -/
theorem C6_theorem (env : String → J → Stream) (initiator : String)
    (st : SessState) (msg : J) (t : String)
    (h1 : hop_relays (hop_process env initiator st msg) = true)
    (h2 : (hop_process env initiator st msg).explicit_target = some t)
    (h3 : t = "A" ∨ t = "B") :
    (do_hop env initiator st msg).current = t
    ∧ (do_hop env initiator st msg).next_message ≠ none := by
  have ht : (t == "A" || t == "B") = true := by
    rcases h3 with h | h <;> simp [h]
  constructor
  · simp [do_hop, h1, h2, ht]
  · simp [do_hop, h1]

/-- Claim C6 witness: agent A delegates the next hop to A itself; the driver
accepts A as the literal next active speaker. -/
theorem C6_witness :
    hop_relays (hop_process envC6 "A" (init_sess "A" "p") (mkUserMsg "p")) = true
    ∧ (hop_process envC6 "A" (init_sess "A" "p") (mkUserMsg "p")).explicit_target = some "A"
    ∧ (do_hop envC6 "A" (init_sess "A" "p") (mkUserMsg "p")).current = "A" :=
  ⟨by decide, by decide,
   (C6_theorem envC6 "A" (init_sess "A" "p") (mkUserMsg "p") "A"
     (by decide) (by decide) (Or.inl rfl)).1⟩

/-- Claim C7: the hop counter of grapp_v3 increases by exactly one per
completed stream, never exceeds the configured hop bound, and once the loop
has stopped (the session is terminal because no message is pending) running
the loop again changes nothing: a terminal session never re-enters the
running state. -/
theorem C7_theorem :
    ∀ (env : String → J → Stream) (initiator prompt : String) (hop_limit : Nat),
      (auto_relay_final env initiator prompt hop_limit).hops ≤ hop_limit
      ∧ (∀ (st : SessState) (msg : J), (do_hop env initiator st msg).hops = st.hops + 1)
      ∧ (∀ (fuel : Nat) (st : SessState), st.next_message = none →
          auto_relay_loop env initiator fuel st = st) := by
  intro env initiator prompt hop_limit
  refine ⟨?_, fun st msg => do_hop_hops env initiator st msg,
    fun fuel st h => loop_stop env initiator fuel st h⟩
  have := loop_hops_le env initiator hop_limit (init_sess initiator prompt)
  simpa [auto_relay_final, init_sess] using this

/-- Claim C7 witness: a concrete session against empty streams respects the
bound, the hop increment, and the loop-stop property. -/
theorem C7_witness :
    (auto_relay_final envC7 "A" "p" 3).hops ≤ 3
    ∧ (do_hop envC7 "A" (init_sess "A" "p") (mkUserMsg "p")).hops
        = (init_sess "A" "p").hops + 1
    ∧ auto_relay_loop envC7 "A" 2 (auto_relay_final envC7 "A" "p" 1)
        = auto_relay_final envC7 "A" "p" 1 :=
  ⟨(C7_theorem envC7 "A" "p" 3).1,
   (C7_theorem envC7 "A" "p" 3).2.1 (init_sess "A" "p") (mkUserMsg "p"),
   (C7_theorem envC7 "A" "p" 1).2.2 2 (auto_relay_final envC7 "A" "p" 1) rfl⟩

/-- Claim C1 counterexample: hop bound 1, one hop in which agent A sends a
message with text hi and then a message with no extractable text.  Exactly
one hop runs, yet the transcript contains an entry marked relayed = true; it
is the last message entry with placeholder text, not the entry whose text
(hi) was selected for relaying, and no further hop follows it. -/
theorem C1_counterexample :
    (auto_relay_final envC1 "A" "p" 1).hops = 1
    ∧ (auto_relay_final envC1 "A" "p" 1).events.map (fun e => (e.text, e.relayed))
        = [("hi", false), ("[non-text parts]", true)] := by
  exact ⟨rfl, by decide⟩

/-- Claim C1 (amended): within one hop of grapp_v3, an entry appended during
the hop carries relayed = true after the hop exactly when the hop scheduled
a next message (relay allowed, some non-empty message text, a message entry
present); the mark goes on the last message entry of the hop, whose
displayed text can differ from the relayed text, and the scheduled hop runs
only while the hop counter is below the bound, so the final hop can leave a
relayed = true entry with no subsequent hop. -/
theorem C1_theorem (env : String → J → Stream) (initiator : String)
    (st : SessState) (msg : J) :
    ((do_hop env initiator st msg).next_message ≠ none)
    ↔ ∃ i e, st.events.length ≤ i
        ∧ (do_hop env initiator st msg).events[i]? = some e
        ∧ e.relayed = true := by
  obtain ⟨tail, ht, htf, hti⟩ := hop_process_shape env initiator st msg
  by_cases hr : hop_relays (hop_process env initiator st msg) = true
  · obtain ⟨j, hj⟩ : ∃ j, (hop_process env initiator st msg).last_msg_event_idx = some j := by
      rcases hmm : (hop_process env initiator st msg).last_msg_event_idx with _ | j
      · exfalso; simp [hop_relays, hmm] at hr
      · exact ⟨j, rfl⟩
    obtain ⟨hge, hlt⟩ := hti j hj
    obtain ⟨e0, he0⟩ : ∃ e0, (hop_process env initiator st msg).events[j]? = some e0 :=
      ⟨_, List.getElem?_eq_getElem hlt⟩
    constructor
    · intro _
      refine ⟨j, { e0 with relayed := true }, hge, ?_, rfl⟩
      simp only [do_hop, hr, if_true, hj, Option.getD_some]
      unfold markRelayed
      rw [he0]
      exact getq_set_self _ j _ e0 he0
    · intro _
      simp [do_hop, hr]
  · constructor
    · intro hne
      exfalso
      apply hne
      simp [do_hop, hr]
    · rintro ⟨i, e, hge, hgets, hrel⟩
      have hev : (do_hop env initiator st msg).events
          = (hop_process env initiator st msg).events := by
        simp [do_hop, hr]
      rw [hev, ht, getq_append_right st.events tail i hge] at hgets
      have hmem := mem_of_getq tail _ e hgets
      have := List.all_eq_true.mp htf e hmem
      rw [hrel] at this
      simp at this

/-- Claim C8 counterexample: every transcript entry is appended with
relayed = false (the record closure always uses the default), yet after the
hop ends the stored entry reads relayed = true: the entry was mutated in
place after having been appended. -/
theorem C8_counterexample :
    (process_frames "A" "A" (hop_init (init_sess "A" "p")) [msgFrame "hello"]).events.map
        (fun e => e.relayed) = [false]
    ∧ (auto_relay_final envC8 "A" "p" 1).events.map (fun e => e.relayed) = [true] := by
  exact ⟨by decide, by decide⟩

/-- Claim C8 (amended): across hops the transcript is append-only: a hop
only extends the previous transcript and never changes or removes entries of
earlier hops.  The one mutation the source performs happens inside a hop:
the last message entry of the hop is appended with relayed = false and
flipped to relayed = true when the hop decides to relay. -/
theorem C8_theorem (env : String → J → Stream) (initiator : String)
    (st : SessState) (msg : J) :
    ∃ tail2, (do_hop env initiator st msg).events = st.events ++ tail2 := by
  obtain ⟨tail, ht, htf, hti⟩ := hop_process_shape env initiator st msg
  by_cases hr : hop_relays (hop_process env initiator st msg) = true
  · obtain ⟨j, hj⟩ : ∃ j, (hop_process env initiator st msg).last_msg_event_idx = some j := by
      rcases hmm : (hop_process env initiator st msg).last_msg_event_idx with _ | j
      · exfalso; simp [hop_relays, hmm] at hr
      · exact ⟨j, rfl⟩
    obtain ⟨hge, hlt⟩ := hti j hj
    refine ⟨markRelayed tail (j - st.events.length), ?_⟩
    simp only [do_hop, hr, if_true, hj, Option.getD_some]
    rw [ht]
    unfold markRelayed
    rw [getq_append_right st.events tail j hge]
    cases hg2 : tail[j - st.events.length]? with
    | none => rfl
    | some e2 =>
      dsimp only
      rw [set_append_right st.events tail j _ hge]
  · exact ⟨tail, by simp [do_hop, hr, ht]⟩

/-- Claim C9: there is no per-hop bound on frame consumption.  Against a
peer whose stream consists only of non-final working status updates (never a
final flag, never a terminal state), the driver records one transcript entry
per frame and consumes every frame the peer sends: for every candidate
bound B a stream of B + 1 such frames makes a single hop consume more than B
frames.  No defensive frame-count or idle ceiling exists in the source (the
max_wait_idle_s parameter of gradio_app.auto_relay_conversation is never
used). -/
theorem C9_theorem : ∀ B : Nat,
    B < ((auto_relay_final (envC9 (B + 1)) "A" "p" 1).events).length := by
  intro B
  have hrt : (hop_process (envC9 (B + 1)) "A" (init_sess "A" "p") (mkUserMsg "p")).relay_text
      = none := by
    simp only [hop_process, envC9]
    rw [process_frames_relay_text]
    rw [filterMap_none_replicate frameText statusWorkingFrame (by decide)]
    rfl
  have hr : hop_relays (hop_process (envC9 (B + 1)) "A" (init_sess "A" "p") (mkUserMsg "p"))
      = false := by
    simp [hop_relays, hrt]
  have hlen : (hop_process (envC9 (B + 1)) "A" (init_sess "A" "p") (mkUserMsg "p")).events.length
      = B + 1 := by
    simp only [hop_process, envC9]
    rw [process_frames_replicate_status]
    simp [hop_init, init_sess]
  have hfin : auto_relay_final (envC9 (B + 1)) "A" "p" 1
      = do_hop (envC9 (B + 1)) "A" (init_sess "A" "p") (mkUserMsg "p") := rfl
  have hev : (do_hop (envC9 (B + 1)) "A" (init_sess "A" "p") (mkUserMsg "p")).events
      = (hop_process (envC9 (B + 1)) "A" (init_sess "A" "p") (mkUserMsg "p")).events := by
    simp [do_hop, hr]
  rw [hfin, hev, hlen]
  omega

/-- Claim C2 counterexample: in grapp_v3, agent A sends a StatusUpdate with
final = true and state completed, followed by a Message.  The driver keeps
consuming: the message is recorded after the terminal status, the relay
decision is not overridden (the message is marked relayed and a second hop
to B runs, so the session performs 2 hops), and the exit reason is the
no-relay exit of hop 2, not a peer-terminal exit. -/
theorem C2_counterexample :
    (auto_relay_final envC2 "A" "p" 3).hops = 2
    ∧ (auto_relay_final envC2 "A" "p" 3).events.map (fun e => (e.kind, e.relayed))
        = [("status", false), ("message", true)]
    ∧ session_reason (auto_relay_final envC2 "A" "p" 3) = "no_relay" := by
  refine ⟨rfl, by decide, rfl⟩

lemma relay_loop_terminal_step (env : String → String → List A2AItem) (init : String)
    (fuel : Nat) (current next_peer baton : String) (fr : Option String) (acc : List Ev6)
    (hterm : (stream_once current next_peer (env current baton) []).terminal = true) :
    (relay_loop env init (fuel + 1) current next_peer baton fr acc).1
      = acc ++ (stream_once current next_peer (env current baton) []).events.map
          (fun e => { e with to_agent := next_peer }) := by
  simp only [relay_loop, hterm, if_true]

/-- Claim C2 (amended): grapp_v3 records the terminal flag but neither stops
consuming frames nor overrides the relay decision with it.  The stopping
behavior the claim describes holds in grapp_v6.stream_once, with a narrower
trigger: a StatusUpdate stops the hop only when its final flag is set and
its state is a completed or failed form (a conjunction, and without the
canceled/rejected states); because a hop also ends at its first Message, a
terminal StatusUpdate never conflicts with an earlier relay decision of the
same hop, and the session loop ends on a terminal hop with no further hop. -/
theorem C2_theorem (stt m : String) (pre post : List A2AItem)
    (hpre : pre.all (fun it => !stopsAt it) = true)
    (hs : terminal6 stt = true) :
    stream_once "claims" "mr" (pre ++ A2AItem.statusEv stt m true :: post) []
      = stream_once "claims" "mr" (pre ++ [A2AItem.statusEv stt m true]) []
    ∧ (stream_once "claims" "mr" (pre ++ A2AItem.statusEv stt m true :: post) []).terminal
        = true
    ∧ ∀ (env : String → String → List A2AItem) (prompt : String),
        env "claims" prompt = pre ++ A2AItem.statusEv stt m true :: post →
        (relay_by_default env "claims" prompt).1
          = (stream_once "claims" "mr" (pre ++ A2AItem.statusEv stt m true :: post) []).events.map
              (fun e => { e with to_agent := "mr" }) := by
  have hstop : stopsAt (A2AItem.statusEv stt m true) = true := by simp [stopsAt, hs]
  have heq := stream_once_stops "claims" "mr" (A2AItem.statusEv stt m true) post hstop pre [] hpre
  have hterm : (stream_once "claims" "mr" (pre ++ A2AItem.statusEv stt m true :: post) []).terminal
      = true := by
    rw [heq]
    exact stream_once_terminal "claims" "mr" stt m hs pre [] hpre
  refine ⟨heq, hterm, ?_⟩
  intro env prompt henv
  have hterm2 : (stream_once "claims" "mr" (env "claims" prompt) []).terminal = true := by
    rw [henv]; exact hterm
  show (relay_loop env "claims" MAX_HOPS "claims" (other6 "claims") prompt none []).1 = _
  rw [show MAX_HOPS = 11 + 1 from rfl]
  rw [show other6 "claims" = "mr" from rfl]
  rw [relay_loop_terminal_step env "claims" 11 "claims" "mr" prompt none [] hterm2]
  rw [henv, List.nil_append]

/-- Claim C2 witness: a concrete stream with one task update before the
terminal status and one late message after it; the late message is never
consumed and the session trace stops with the terminal hop. -/
theorem C2_witness :
    ([A2AItem.taskOnly "t1"].all (fun it => !stopsAt it) = true)
    ∧ terminal6 "completed" = true
    ∧ (stream_once "claims" "mr" itemsC2 []).terminal = true
    ∧ (relay_by_default (fun _ _ => itemsC2) "claims" "x").1
        = (stream_once "claims" "mr" itemsC2 []).events.map
            (fun e => { e with to_agent := "mr" }) := by
  have h := C2_theorem "completed" "done" [A2AItem.taskOnly "t1"]
    [A2AItem.msg "late" (J.obj [])] (by decide) (by decide)
  exact ⟨by decide, by decide, h.2.1, h.2.2 (fun _ _ => itemsC2) "x" rfl⟩

/-- Claim C5 counterexample: a file part is not excluded from the relay
text: extraction renders it as the placeholder token inside the same string
as the textual parts, and a message consisting of a file part alone yields
the non-empty text [file], which grapp_v3 relays (the entry is marked
relayed and a second hop runs), while the claim requires the extracted text
of exactly the textual parts (here empty) and therefore no relay. -/
theorem C5_counterexample :
    extract_text_parts (J.obj [("parts",
        J.arr [J.obj [("kind", J.s "text"), ("text", J.s "hi")],
          J.obj [("kind", J.s "file")]])]) = "hi\n[file]"
    ∧ (auto_relay_final envC5 "A" "p" 2).hops = 2
    ∧ (auto_relay_final envC5 "A" "p" 2).events.map (fun e => (e.text, e.relayed))
        = [("[file]", true)] := by
  refine ⟨rfl, rfl, by decide⟩

/-- Claim C5 (amended): extraction joins, in array order, the non-empty
pieces with newlines, where text parts contribute their text and file and
data parts contribute placeholder tokens that remain part of the transcript
text and of the relay text; a Message whose extracted text is empty after
stripping contributes no relay text, regardless of metadata flags. -/
theorem C5_theorem :
    (∀ (sender initiator : String) (h : HopState) (f : J),
        (parse_stream_result f).1 = "message" →
        pyStrip (extract_text_parts (parse_stream_result f).2) = "" →
        (process_frame sender initiator h f).relay_text = h.relay_text)
    ∧ extract_text_parts (J.obj [("parts", J.arr [J.obj [("kind", J.s "file")]])])
        = "[file]" := by
  constructor
  · intro sender initiator h f hm ht
    have hrt := (process_frame_relay_fields sender initiator h f).2
    rw [hrt]
    simp [frameText, hm, ht]
  · rfl

/-- Claim C5 witness: a message frame with an empty parts array extracts to
the empty string and leaves the pending relay text unchanged. -/
theorem C5_witness :
    (parse_stream_result msgFrameEmpty).1 = "message"
    ∧ pyStrip (extract_text_parts (parse_stream_result msgFrameEmpty).2) = ""
    ∧ (process_frame "A" "A" (hop_init (init_sess "A" "p")) msgFrameEmpty).relay_text
        = (hop_init (init_sess "A" "p")).relay_text :=
  ⟨by decide, by decide,
   C5_theorem.1 "A" "A" (hop_init (init_sess "A" "p")) msgFrameEmpty
     (by decide) (by decide)⟩

/-- Claim C10 counterexample: a frame wrapped under the message key whose
inner payload matches no recognized shape classifies as message (the variant
named by the wrapper key), not as unknown, while the same payload placed
directly under result classifies as unknown: the classifier does not retry
the shape rules on the unwrapped payload. -/
theorem C10_counterexample :
    (parse_stream_result (J.obj [("result",
        J.obj [("message", J.obj [("foo", J.s "bar")])])])).1 = "message"
    ∧ (parse_stream_result (J.obj [("result", J.obj [("foo", J.s "bar")])])).1
        = "unknown" := by
  exact ⟨rfl, rfl⟩

/-- Claim C10 (amended): when none of the direct shapes match and the result
object carries one of the wrapper keys (message, task, statusUpdate,
artifactUpdate, probed in that order), the classifier returns the variant
named by the wrapper key together with the unmodified inner payload,
whatever its shape; the inner payload is not reclassified. -/
theorem C10_theorem (inner : J) :
    parse_stream_result (J.obj [("result", J.obj [("message", inner)])])
      = ("message", inner)
    ∧ parse_stream_result (J.obj [("result", J.obj [("statusUpdate", inner)])])
      = ("statusUpdate", inner) := by
  exact ⟨rfl, rfl⟩
